import Mathlib

/-!
Shallow embedding of the Recipe-App Django REST backend
(users, recipes, tags, ingredients; token auth; image upload).

Pure functions model the request handlers; the relational store is an
explicit `Db` value threaded through each operation.  Framework behaviour
that the source relies on (queryset `filter`/`order_by`, `find`-style
object lookup with 404, DRF field validation, Django password hashing)
is embedded as executable Lean functions; repository code that is present
in the sources (`recipe/views.py`, `user/serializers.py`) is translated
line by line, and repository modules absent from the sources
(`core/models.py`, `recipe/serializers.py`, `user/views.py`) are modelled
from the specification, as marked on each definition.
-/

/-- A user row: email (unique), hashed password, display name, admin flags. -/
structure User where
  id : Nat
  email : String
  passwordHash : String
  name : String
  isStaff : Bool
  isSuperuser : Bool
deriving DecidableEq

/-- A tag or ingredient row: both tables have the shape (id, user FK, name),
so one row type serves both, kept in two separate stores. -/
structure AttrRow where
  id : Nat
  userId : Nat
  name : String
deriving DecidableEq

/-- A tag (or ingredient) table together with its id sequence. -/
structure AttrState where
  rows : List AttrRow
  nextId : Nat
deriving DecidableEq

/-- A recipe row; `tagIds`/`ingredientIds` model the two many-to-many tables. -/
structure Recipe where
  id : Nat
  userId : Nat
  title : String
  timeMinutes : Nat
  price : Int
  description : String
  link : String
  image : Option String
  tagIds : List Nat
  ingredientIds : List Nat
deriving DecidableEq

/-- The relational store. -/
structure Db where
  users : List User
  recipes : List Recipe
  tags : AttrState
  ingredients : AttrState
  nextUserId : Nat
  nextRecipeId : Nat
deriving DecidableEq

/-- An uploaded file: whether it decodes as an image, and its extension. -/
structure ImageFile where
  valid : Bool
  ext : String
deriving DecidableEq

/-- A recipe write payload.  The serializer fields (spec section 3: title,
time-to-prepare, price, optional description/link, nested tags/ingredients)
are optional here to model partial updates; `user` models a stray `user`
key in the request body, which is not a serializer field. -/
structure RecipePayload where
  title : Option String := none
  timeMinutes : Option Nat := none
  price : Option Int := none
  description : Option String := none
  link : Option String := none
  user : Option Nat := none
  tags : Option (List String) := none
  ingredients : Option (List String) := none
  image : Option ImageFile := none
deriving DecidableEq

/-- Lexicographic byte-order comparison of the character lists of two
names; models the database collation behind `order_by('-name')`. -/
def charsLe : List Char → List Char → Bool
  | [], _ => true
  | _ :: _, [] => false
  | a :: as, b :: bs =>
    if a.toNat < b.toNat then true
    else if b.toNat < a.toNat then false
    else charsLe as bs

/-- String order used by `order_by` on name columns. -/
def strLe (a b : String) : Prop := charsLe a.data b.data = true

instance (a b : String) : Decidable (strLe a b) := by
  unfold strLe; infer_instance

/-- One step of insertion sort for a descending `order_by`: `x` goes in
front of the first element that is `le` it. -/
def insertDescBy (le : α → α → Prop) [DecidableRel le] (x : α) : List α → List α
  | [] => [x]
  | y :: ys => if le y x then x :: y :: ys else y :: insertDescBy le x ys

/-- Insertion sort realising a descending `order_by`. -/
def sortDescBy (le : α → α → Prop) [DecidableRel le] : List α → List α
  | [] => []
  | x :: xs => insertDescBy le x (sortDescBy le xs)

/-- `RecipeViewSet.get_queryset` (views.py): recipes of the requesting
user, ordered by `-id`. -/
def recipe_get_queryset (uid : Nat) (db : Db) : List Recipe :=
  sortDescBy (fun a b => a.id ≤ b.id) (db.recipes.filter (fun r => r.userId = uid))

/-- `BaseRecipeAttributesViewSet.get_queryset` (views.py): tags or
ingredients of the requesting user, ordered by `-name`.  Note the source
reads nothing from the request's query parameters. -/
def attr_get_queryset (uid : Nat) (st : AttrState) : List AttrRow :=
  sortDescBy (fun a b => strLe a.name b.name) (st.rows.filter (fun t => t.userId = uid))

/-- The tag/ingredient list endpoint (`ListModelMixin.list` over
`get_queryset`).  The query parameters are accepted but, as in the source,
never consulted: `get_queryset` ignores `assigned_only`. -/
def attr_list (uid : Nat) (_queryParams : List (String × String)) (st : AttrState) : List AttrRow :=
  attr_get_queryset uid st

/-- DRF `get_object`: first object of the user-filtered queryset with the
requested pk, `none` standing for the 404 raised by `get_object_or_404`. -/
def recipe_get_object (uid pk : Nat) (db : Db) : Option Recipe :=
  (recipe_get_queryset uid db).find? (fun r => r.id = pk)

/-- DRF `get_object` for tags/ingredients. -/
def attr_get_object (uid pk : Nat) (st : AttrState) : Option AttrRow :=
  (attr_get_queryset uid st).find? (fun t => t.id = pk)

/-- Tag/ingredient lookup by (user, name): `Tag.objects.filter(user=..,
name=..).first()` as used by the nested-write reconciliation. -/
def findAttr (uid : Nat) (n : String) (rows : List AttrRow) : Option AttrRow :=
  rows.find? (fun t => decide (t.userId = uid) && decide (t.name = n))

/-- Modelled from the spec: `recipe/serializers.py` (`_get_or_create_tags`
and its ingredient twin) is not under the sources.  Spec 4.2: for one
submitted name, reuse an existing (user, name) match or create a new row
scoped to that user. -/
def getOrCreate (uid : Nat) (n : String) (st : AttrState) : AttrState × Nat :=
  match findAttr uid n st.rows with
  | some t => (st, t.id)
  | none => (⟨st.rows ++ [⟨st.nextId, uid, n⟩], st.nextId + 1⟩, st.nextId)

/-- Modelled from the spec: reconciliation of a whole submitted name list
(spec 4.2), resolving each name in order and returning the resolved ids. -/
def getOrCreateMany (uid : Nat) (names : List String) (st : AttrState) : AttrState × List Nat :=
  match names with
  | [] => (st, [])
  | n :: ns =>
    let p1 := getOrCreate uid n st
    let p2 := getOrCreateMany uid ns p1.1
    (p2.1, p1.2 :: p2.2)

/-- Modelled from the spec: the writable serializer fields of
`RecipeSerializer`/`RecipeDetailSerializer` (spec sections 3 and 6): title,
time-to-prepare, price, description, link.  The `user` key of a payload is
not a serializer field and is never applied. -/
def apply_scalar_fields (p : RecipePayload) (r : Recipe) : Recipe :=
  { r with
    title := p.title.getD r.title
    timeMinutes := p.timeMinutes.getD r.timeMinutes
    price := p.price.getD r.price
    description := p.description.getD r.description
    link := p.link.getD r.link }

/-- Modelled from the spec: on a write whose payload carries a tags or
ingredients list, the association set is replaced wholesale with the
resolved set (spec 4.2); an absent key leaves associations untouched. -/
def reconcile_attrs (uid : Nat) (p : RecipePayload) (r : Recipe) (db : Db) : Recipe × Db :=
  let tagStep : Recipe × AttrState :=
    match p.tags with
    | none => (r, db.tags)
    | some names =>
      let res := getOrCreateMany uid names db.tags
      ({ r with tagIds := res.2 }, res.1)
  let ingStep : Recipe × AttrState :=
    match p.ingredients with
    | none => (tagStep.1, db.ingredients)
    | some names =>
      let res := getOrCreateMany uid names db.ingredients
      ({ tagStep.1 with ingredientIds := res.2 }, res.1)
  (ingStep.1, { db with tags := tagStep.2, ingredients := ingStep.2 })

/-- Create-time serializer validation: the required model fields of spec
section 3 (title, time-to-prepare, price) must be present. -/
def recipe_create_valid (p : RecipePayload) : Bool :=
  p.title.isSome && p.timeMinutes.isSome && p.price.isSome

/-- `RecipeViewSet.perform_create` (views.py): `serializer.save(user=
self.request.user)` — the stored recipe's user is the requester, whatever
the payload said. -/
def perform_create (uid : Nat) (p : RecipePayload) (db : Db) : Recipe × Db :=
  let r0 : Recipe :=
    { id := db.nextRecipeId
      userId := uid
      title := p.title.getD ""
      timeMinutes := p.timeMinutes.getD 0
      price := p.price.getD 0
      description := p.description.getD ""
      link := p.link.getD ""
      image := none
      tagIds := []
      ingredientIds := [] }
  let rec1 := reconcile_attrs uid p r0 db
  (rec1.1, { rec1.2 with
    recipes := rec1.2.recipes ++ [rec1.1]
    nextRecipeId := db.nextRecipeId + 1 })

/-- POST /recipes: validate, then `perform_create`. -/
def recipe_create (uid : Nat) (p : RecipePayload) (db : Db) : Nat × Db :=
  if recipe_create_valid p then
    let res := perform_create uid p db
    (201, res.2)
  else (400, db)

/-- GET /recipes/pk: retrieve through the user-scoped queryset; missing
object means 404. -/
def recipe_retrieve (uid pk : Nat) (db : Db) : Nat × Option Recipe :=
  match recipe_get_object uid pk db with
  | some r => (200, some r)
  | none => (404, none)

/-- PATCH/PUT /recipes/pk: look up through the user-scoped queryset,
apply serializer fields, reconcile nested lists, store the result. -/
def recipe_update (uid pk : Nat) (p : RecipePayload) (db : Db) : Nat × Db :=
  match recipe_get_object uid pk db with
  | none => (404, db)
  | some r =>
    let r1 := apply_scalar_fields p r
    let rec1 := reconcile_attrs uid p r1 db
    (200, { rec1.2 with
      recipes := rec1.2.recipes.map (fun x => if x.id = pk then rec1.1 else x) })

/-- DELETE /recipes/pk. -/
def recipe_destroy (uid pk : Nat) (db : Db) : Nat × Db :=
  match recipe_get_object uid pk db with
  | none => (404, db)
  | some _ => (204, { db with recipes := db.recipes.filter (fun x => ¬ x.id = pk) })

/-- PATCH /tags/pk (and ingredients): rename through the user-scoped
queryset. -/
def attr_update (uid pk : Nat) (newName : String) (st : AttrState) : Nat × AttrState :=
  match attr_get_object uid pk st with
  | none => (404, st)
  | some _ =>
    (200, { st with rows := st.rows.map (fun x => if x.id = pk then { x with name := newName } else x) })

/-- DELETE /tags/pk (and ingredients). -/
def attr_destroy (uid pk : Nat) (st : AttrState) : Nat × AttrState :=
  match attr_get_object uid pk st with
  | none => (404, st)
  | some _ => (204, { st with rows := st.rows.filter (fun x => ¬ x.id = pk) })

/-- HTTP methods reaching a detail route. -/
inductive Method
  | get
  | post
  | put
  | patch
  | delete
deriving DecidableEq

/-- Detail-route dispatch for `BaseRecipeAttributesViewSet` (views.py):
the class mixes in Update, Destroy and List only — there is no retrieve
action, so the router binds no handler to GET on the detail route and the
framework answers 405 Method Not Allowed. -/
def attr_detail_dispatch (m : Method) (uid pk : Nat) (newName : String) (st : AttrState) : Nat × AttrState :=
  match m with
  | .put => attr_update uid pk newName st
  | .patch => attr_update uid pk newName st
  | .delete => attr_destroy uid pk st
  | _ => (405, st)

/-- The serializer classes named by `RecipeViewSet` (views.py). -/
inductive SerializerClass
  | recipeSerializer
  | recipeDetailSerializer
  | recipeImageSerializer
deriving DecidableEq

/-- `RecipeViewSet.get_serializer_class` (views.py), translated branch by
branch, including its comparison of the action against the hyphenated
string. -/
def get_serializer_class (action : String) : SerializerClass :=
  if action = "list" then .recipeSerializer
  else if action = "upload-image" then .recipeImageSerializer
  else .recipeDetailSerializer

/-- The action name DRF assigns to the extra action: the bound method's
name `upload_image`; `url_path` affects only the URL. -/
def upload_image_action : String := "upload_image"

/-- Validation performed by each serializer on an upload payload: the
image serializer requires a decodable image; the recipe serializers
require the model's mandatory fields (spec section 3). -/
def serializer_is_valid (cls : SerializerClass) (p : RecipePayload) : Bool :=
  match cls with
  | .recipeImageSerializer =>
    match p.image with
    | some img => img.valid
    | none => false
  | _ => recipe_create_valid p

/-- Modelled from the spec: `core/models.py` `recipe_image_file_path` is
not under the sources; spec 4.5 stores under a generated unique filename
(tests pin the format `uploads/recipe/<uuid><ext>`). -/
def recipe_image_file_path (uuid ext : String) : String :=
  "uploads/recipe/" ++ uuid ++ ext

/-- What `serializer.save()` writes for each serializer class. -/
def serializer_save (cls : SerializerClass) (p : RecipePayload) (r : Recipe) (uuid : String) : Recipe :=
  match cls with
  | .recipeImageSerializer =>
    match p.image with
    | some img => { r with image := some (recipe_image_file_path uuid img.ext) }
    | none => r
  | _ => apply_scalar_fields p r

/-- `RecipeViewSet.upload_image` (views.py): fetch the object, build the
serializer that `get_serializer_class` selects for the current action,
save on valid, else 400. -/
def upload_image (uid pk : Nat) (p : RecipePayload) (uuid : String) (db : Db) : Nat × Db :=
  match recipe_get_object uid pk db with
  | none => (404, db)
  | some r =>
    let cls := get_serializer_class upload_image_action
    if serializer_is_valid cls p then
      let r1 := serializer_save cls p r uuid
      (200, { db with recipes := db.recipes.map (fun x => if x.id = pk then r1 else x) })
    else (400, db)

/-- Django password hashing, modelled as an injective tagging so that
`check_password` holds exactly for the original password. -/
def hashPassword (pw : String) : String := "pbkdf2:" ++ pw

/-- `django.contrib.auth.authenticate`: the user whose email matches and
whose stored hash verifies against the submitted password. -/
def authenticate (email pw : String) (users : List User) : Option User :=
  users.find? (fun u => decide (u.email = email) && decide (u.passwordHash = hashPassword pw))

/-- `AuthTokenSerializer.validate` (user/serializers.py): authenticate or
raise a validation error (`none`). -/
def auth_token_validate (email pw : String) (users : List User) : Option User :=
  authenticate email pw users

/-- POST /user/token.  The serializer's `password` CharField rejects a
blank value before `validate` runs (DRF default `allow_blank=False`);
a failed `validate` yields 400 with no token; success issues a token. -/
def token_endpoint (email pw : String) (users : List User) : Nat × Option String :=
  if pw = "" then (400, none)
  else
    match auth_token_validate email pw users with
    | none => (400, none)
    | some u => (200, some ("token:" ++ toString u.id))

/-- Split a character list at the LAST occurrence of `c`
(Python `rsplit(c, 1)`), `none` when `c` does not occur. -/
def rsplitAt (c : Char) : List Char → Option (List Char × List Char)
  | [] => none
  | x :: xs =>
    match rsplitAt c xs with
    | some q => some (x :: q.1, q.2)
    | none => if x = c then some ([], xs) else none

/-- Modelled from the spec: `core/models.py` user manager is not under the
sources.  Spec sections 3 and 8: the email's domain portion (after the
last `@`) is lowercased, the local part kept as given; an email without
`@` is left unchanged (Django `BaseUserManager.normalize_email`). -/
def normalizeEmailChars (l : List Char) : List Char :=
  match rsplitAt '@' l with
  | some q => q.1 ++ '@' :: q.2.map Char.toLower
  | none => l

/-- String-level email normalization. -/
def normalize_email (s : String) : String := String.mk (normalizeEmailChars s.data)

/-- Modelled from the spec: `create_user` of the custom user manager is
not under the sources.  Spec section 8: creating without an email fails;
otherwise the user is stored with normalized email and hashed password. -/
def create_user (email pw nm : String) (db : Db) : Except String Db :=
  if email = "" then Except.error "Users must have an email address"
  else Except.ok { db with
    users := db.users ++
      [{ id := db.nextUserId
         email := normalize_email email
         passwordHash := hashPassword pw
         name := nm
         isStaff := false
         isSuperuser := false }]
    nextUserId := db.nextUserId + 1 }

/-- POST /user/create: `UserSerializer` validation (user/serializers.py:
password `min_length` 5; the unique email constraint of spec section 3
surfacing as a field error), then `create_user`. -/
def create_user_endpoint (email pw nm : String) (db : Db) : Nat × Db :=
  if pw.length < 5 then (400, db)
  else if db.users.any (fun u => u.email = email) then (400, db)
  else
    match create_user email pw nm db with
    | Except.error _ => (400, db)
    | Except.ok db1 => (201, db1)

/-- Resolved id of a (user, name) pair in a row list, 0 when absent;
used only to state properties of the reconciliation. -/
def resolveId (uid : Nat) (n : String) (rows : List AttrRow) : Nat :=
  match findAttr uid n rows with
  | some t => t.id
  | none => 0

/-- Fixture: the authenticated user of the concrete scenarios. -/
def user1 : User :=
  { id := 1, email := "user@example.com", passwordHash := hashPassword "testpass1234"
    name := "John Doe", isStaff := false, isSuperuser := false }

/-- Fixture: a second user owning foreign resources. -/
def user2 : User :=
  { id := 2, email := "user2@example.com", passwordHash := hashPassword "testpass1234"
    name := "Jane Roe", isStaff := false, isSuperuser := false }

/-- Fixture: a tag of user 1 referenced by a recipe. -/
def tagA : AttrRow := { id := 1, userId := 1, name := "Tag a" }

/-- Fixture: a tag of user 1 referenced by no recipe. -/
def tagB : AttrRow := { id := 2, userId := 1, name := "Tag b" }

/-- Fixture: user 1's only recipe, referencing `tagA`. -/
def rec1 : Recipe :=
  { id := 1, userId := 1, title := "Rec 1", timeMinutes := 5, price := 450
    description := "", link := "", image := none, tagIds := [1], ingredientIds := [] }

/-- Fixture: store with user 1, one recipe, tags `tagA` (assigned) and
`tagB` (unassigned). -/
def db1 : Db :=
  { users := [user1]
    recipes := [rec1]
    tags := { rows := [tagA, tagB], nextId := 3 }
    ingredients := { rows := [], nextId := 1 }
    nextUserId := 2
    nextRecipeId := 2 }

/-- Fixture: store where every recipe, tag and ingredient belongs to
user 2, while user 1 is the requester. -/
def db2 : Db :=
  { users := [user1, user2]
    recipes := [{ id := 7, userId := 2, title := "Foreign", timeMinutes := 3, price := 100
                  description := "", link := "", image := none, tagIds := [], ingredientIds := [] }]
    tags := { rows := [{ id := 5, userId := 2, name := "Dessert" }], nextId := 6 }
    ingredients := { rows := [{ id := 6, userId := 2, name := "Salt" }], nextId := 7 }
    nextUserId := 3
    nextRecipeId := 8 }

/-- Fixture: an upload payload that is exactly a decodable image. -/
def validImagePayload : RecipePayload := { image := some { valid := true, ext := ".jpg" } }

theorem charsLe_total (a b : List Char) : charsLe a b = true ∨ charsLe b a = true := by
  induction a generalizing b with
  | nil => left; rfl
  | cons x xs ih =>
    cases b with
    | nil => right; rfl
    | cons y ys =>
      by_cases hxy : x.toNat < y.toNat
      · left; simp [charsLe, hxy]
      · by_cases hyx : y.toNat < x.toNat
        · right; simp [charsLe, hyx]
        · rcases ih ys with h | h
          · left; simp [charsLe, hxy, hyx, h]
          · right; simp [charsLe, hxy, hyx, h]

theorem charsLe_trans (a b c : List Char) (h1 : charsLe a b = true)
    (h2 : charsLe b c = true) : charsLe a c = true := by
  induction a generalizing b c with
  | nil => rfl
  | cons x xs ih =>
    cases b with
    | nil => simp [charsLe] at h1
    | cons y ys =>
      cases c with
      | nil => simp [charsLe] at h2
      | cons z zs =>
        by_cases hxy : x.toNat < y.toNat
        · by_cases hyz : y.toNat < z.toNat
          · have hxz : x.toNat < z.toNat := Nat.lt_trans hxy hyz
            simp [charsLe, hxz]
          · by_cases hzy : z.toNat < y.toNat
            · simp [charsLe, hyz, hzy] at h2
            · have heq : y.toNat = z.toNat :=
                Nat.le_antisymm (Nat.le_of_not_lt hzy) (Nat.le_of_not_lt hyz)
              have hxz : x.toNat < z.toNat := by omega
              simp [charsLe, hxz]
        · by_cases hyx : y.toNat < x.toNat
          · simp [charsLe, hxy, hyx] at h1
          · have hxyeq : x.toNat = y.toNat :=
              Nat.le_antisymm (Nat.le_of_not_lt hyx) (Nat.le_of_not_lt hxy)
            simp only [charsLe, if_neg hxy, if_neg hyx] at h1
            by_cases hyz : y.toNat < z.toNat
            · have hxz : x.toNat < z.toNat := by omega
              simp [charsLe, hxz]
            · by_cases hzy : z.toNat < y.toNat
              · simp [charsLe, hyz, hzy] at h2
              · simp only [charsLe, if_neg hyz, if_neg hzy] at h2
                have hxz : ¬ x.toNat < z.toNat := by omega
                have hzx : ¬ z.toNat < x.toNat := by omega
                simp only [charsLe, if_neg hxz, if_neg hzx]
                exact ih ys zs h1 h2

theorem strLe_total (a b : String) : strLe a b ∨ strLe b a := charsLe_total a.data b.data

theorem strLe_trans (a b c : String) (h1 : strLe a b) (h2 : strLe b c) : strLe a c :=
  charsLe_trans a.data b.data c.data h1 h2

theorem mem_insertDescBy (le : α → α → Prop) [DecidableRel le] (x a : α) (l : List α) :
    a ∈ insertDescBy le x l ↔ a = x ∨ a ∈ l := by
  induction l with
  | nil => simp [insertDescBy]
  | cons y ys ih =>
    by_cases h : le y x
    · simp only [insertDescBy, if_pos h, List.mem_cons]
    · simp only [insertDescBy, if_neg h, List.mem_cons, ih]
      tauto

theorem pairwise_insertDescBy (le : α → α → Prop) [DecidableRel le]
    (htot : ∀ a b, le a b ∨ le b a) (htrans : ∀ a b c, le a b → le b c → le a c)
    (x : α) (l : List α) (h : l.Pairwise (fun a b => le b a)) :
    (insertDescBy le x l).Pairwise (fun a b => le b a) := by
  induction l with
  | nil => simp [insertDescBy]
  | cons y ys ih =>
    rcases List.pairwise_cons.mp h with ⟨hy, hys⟩
    by_cases hle : le y x
    · simp only [insertDescBy, if_pos hle]
      refine List.pairwise_cons.mpr ⟨?_, h⟩
      intro z hz
      rcases List.mem_cons.mp hz with rfl | hz
      · exact hle
      · exact htrans z y x (hy z hz) hle
    · simp only [insertDescBy, if_neg hle]
      refine List.pairwise_cons.mpr ⟨?_, ih hys⟩
      intro z hz
      rcases (mem_insertDescBy le x z ys).mp hz with rfl | hz
      · rcases htot z y with h' | h'
        · exact h'
        · exact absurd h' hle
      · exact hy z hz

theorem mem_sortDescBy (le : α → α → Prop) [DecidableRel le] (a : α) (l : List α) :
    a ∈ sortDescBy le l ↔ a ∈ l := by
  induction l with
  | nil => simp [sortDescBy]
  | cons x xs ih =>
    simp only [sortDescBy, mem_insertDescBy, List.mem_cons, ih]

theorem pairwise_sortDescBy (le : α → α → Prop) [DecidableRel le]
    (htot : ∀ a b, le a b ∨ le b a) (htrans : ∀ a b c, le a b → le b c → le a c)
    (l : List α) : (sortDescBy le l).Pairwise (fun a b => le b a) := by
  induction l with
  | nil => exact List.Pairwise.nil
  | cons x xs ih => exact pairwise_insertDescBy le htot htrans x (sortDescBy le xs) ih

theorem find?_append_of_some {p : α → Bool} {l1 l2 : List α} {a : α}
    (h : l1.find? p = some a) : (l1 ++ l2).find? p = some a := by
  rw [List.find?_append, h]; rfl

theorem findAttr_spec {uid : Nat} {n : String} {rows : List AttrRow} {t : AttrRow}
    (h : findAttr uid n rows = some t) : t ∈ rows ∧ t.userId = uid ∧ t.name = n := by
  refine ⟨List.mem_of_find?_eq_some h, ?_⟩
  have hp := List.find?_some h
  simpa [Bool.and_eq_true, decide_eq_true_eq] using hp

theorem getOrCreate_reuse {uid : Nat} {n : String} {st : AttrState} {t : AttrRow}
    (h : findAttr uid n st.rows = some t) : getOrCreate uid n st = (st, t.id) := by
  simp [getOrCreate, h]

theorem getOrCreate_new {uid : Nat} {n : String} {st : AttrState}
    (h : findAttr uid n st.rows = none) :
    (getOrCreate uid n st).1.rows = st.rows ++ [⟨st.nextId, uid, n⟩] := by
  simp [getOrCreate, h]

theorem findAttr_getOrCreate_self (uid : Nat) (n : String) (st : AttrState) :
    ∃ t, findAttr uid n (getOrCreate uid n st).1.rows = some t
      ∧ (getOrCreate uid n st).2 = t.id := by
  cases h : findAttr uid n st.rows with
  | some t => exact ⟨t, by simp [getOrCreate, h], by simp [getOrCreate, h]⟩
  | none =>
    refine ⟨⟨st.nextId, uid, n⟩, ?_, by simp [getOrCreate, h]⟩
    simp only [getOrCreate, h]
    unfold findAttr at h ⊢
    rw [List.find?_append, h]
    simp

theorem findAttr_mono_getOrCreate (uid2 : Nat) (m : String) (uid : Nat) (n : String)
    (st : AttrState) (t : AttrRow) (h : findAttr uid2 m st.rows = some t) :
    findAttr uid2 m (getOrCreate uid n st).1.rows = some t := by
  cases hf : findAttr uid n st.rows with
  | some t2 => simpa [getOrCreate, hf] using h
  | none =>
    simp only [getOrCreate, hf]
    exact find?_append_of_some h

theorem findAttr_mono_getOrCreateMany (uid2 : Nat) (m : String) (uid : Nat)
    (names : List String) (st : AttrState) (t : AttrRow)
    (h : findAttr uid2 m st.rows = some t) :
    findAttr uid2 m (getOrCreateMany uid names st).1.rows = some t := by
  induction names generalizing st with
  | nil => simpa [getOrCreateMany] using h
  | cons x xs ih =>
    simp only [getOrCreateMany]
    exact ih (getOrCreate uid x st).1 (findAttr_mono_getOrCreate uid2 m uid x st t h)

theorem findAttr_isSome_after_many (uid : Nat) (names : List String) (st : AttrState) :
    ∀ n ∈ names, (findAttr uid n (getOrCreateMany uid names st).1.rows).isSome := by
  induction names generalizing st with
  | nil => intro n hn; cases hn
  | cons m ms ih =>
    intro n hn
    rcases List.mem_cons.mp hn with rfl | hn
    · rcases findAttr_getOrCreate_self uid n st with ⟨t, hf, _⟩
      have := findAttr_mono_getOrCreateMany uid n uid ms (getOrCreate uid n st).1 t hf
      simp only [getOrCreateMany]
      simp [this]
    · simp only [getOrCreateMany]
      exact ih (getOrCreate uid m st).1 n hn

theorem getOrCreateMany_noop (uid : Nat) (names : List String) (st : AttrState)
    (h : ∀ n ∈ names, (findAttr uid n st.rows).isSome) :
    getOrCreateMany uid names st = (st, names.map (fun n => resolveId uid n st.rows)) := by
  induction names with
  | nil => rfl
  | cons m ms ih =>
    rcases Option.isSome_iff_exists.mp (h m (by simp)) with ⟨t, hm⟩
    have hstep : getOrCreate uid m st = (st, t.id) := getOrCreate_reuse hm
    have hrec := ih (fun n hn => h n (by simp [hn]))
    simp [getOrCreateMany, hstep, hrec, resolveId, hm]

theorem getOrCreateMany_resolved_ids (uid : Nat) (names : List String) (st : AttrState) :
    (getOrCreateMany uid names st).2
      = names.map (fun n => resolveId uid n (getOrCreateMany uid names st).1.rows) := by
  induction names generalizing st with
  | nil => rfl
  | cons m ms ih =>
    rcases findAttr_getOrCreate_self uid m st with ⟨t, hfind, hid⟩
    have hmono := findAttr_mono_getOrCreateMany uid m uid ms (getOrCreate uid m st).1 t hfind
    have h1 : (getOrCreate uid m st).2
        = resolveId uid m ((getOrCreateMany uid ms (getOrCreate uid m st).1).1).rows := by
      rw [hid]; simp [resolveId, hmono]
    have h2 := ih (getOrCreate uid m st).1
    simp only [getOrCreateMany, List.map_cons]
    rw [← h1, ← h2]

theorem getOrCreateMany_idempotent (uid : Nat) (names : List String) (st : AttrState) :
    getOrCreateMany uid names (getOrCreateMany uid names st).1
      = ((getOrCreateMany uid names st).1, (getOrCreateMany uid names st).2) := by
  rw [getOrCreateMany_noop uid names _ (findAttr_isSome_after_many uid names st)]
  rw [← getOrCreateMany_resolved_ids]

theorem mem_recipe_get_queryset (uid : Nat) (db : Db) (r : Recipe) :
    r ∈ recipe_get_queryset uid db ↔ r ∈ db.recipes ∧ r.userId = uid := by
  unfold recipe_get_queryset
  rw [mem_sortDescBy]
  simp [List.mem_filter]

theorem mem_attr_get_queryset (uid : Nat) (st : AttrState) (t : AttrRow) :
    t ∈ attr_get_queryset uid st ↔ t ∈ st.rows ∧ t.userId = uid := by
  unfold attr_get_queryset
  rw [mem_sortDescBy]
  simp [List.mem_filter]

theorem recipe_get_object_eq_none (uid pk : Nat) (db : Db)
    (h : ∀ x ∈ db.recipes, x.id = pk → x.userId ≠ uid) :
    recipe_get_object uid pk db = none := by
  unfold recipe_get_object
  rw [List.find?_eq_none]
  intro x hx
  rw [mem_recipe_get_queryset] at hx
  simp only [decide_eq_true_eq]
  intro hpk
  exact h x hx.1 hpk hx.2

theorem attr_get_object_eq_none (uid pk : Nat) (st : AttrState)
    (h : ∀ x ∈ st.rows, x.id = pk → x.userId ≠ uid) :
    attr_get_object uid pk st = none := by
  unfold attr_get_object
  rw [List.find?_eq_none]
  intro x hx
  rw [mem_attr_get_queryset] at hx
  simp only [decide_eq_true_eq]
  intro hpk
  exact h x hx.1 hpk hx.2

theorem recipe_get_object_spec {uid pk : Nat} {db : Db} {r : Recipe}
    (h : recipe_get_object uid pk db = some r) :
    r ∈ db.recipes ∧ r.userId = uid ∧ r.id = pk := by
  have hm := List.mem_of_find?_eq_some h
  rw [mem_recipe_get_queryset] at hm
  have hp := List.find?_some h
  simp only [decide_eq_true_eq] at hp
  exact ⟨hm.1, hm.2, hp⟩

theorem reconcile_attrs_id (uid : Nat) (p : RecipePayload) (r : Recipe) (db : Db) :
    (reconcile_attrs uid p r db).1.id = r.id
      ∧ (reconcile_attrs uid p r db).1.userId = r.userId := by
  cases hp : p.tags <;> cases hq : p.ingredients <;> simp [reconcile_attrs, hp, hq]

theorem reconcile_attrs_recipes (uid : Nat) (p : RecipePayload) (r : Recipe) (db : Db) :
    (reconcile_attrs uid p r db).2.recipes = db.recipes := by
  cases hp : p.tags <;> cases hq : p.ingredients <;> simp [reconcile_attrs, hp, hq]

theorem reconcile_attrs_tagIds {uid : Nat} {p : RecipePayload} (r : Recipe) (db : Db)
    {names : List String} (hp : p.tags = some names) :
    (reconcile_attrs uid p r db).1.tagIds = (getOrCreateMany uid names db.tags).2 := by
  cases hq : p.ingredients <;> simp [reconcile_attrs, hp, hq]

/-- C2: nested-write reconciliation resolves a name matching an existing
(user, name) row of the requesting user to that row without creating
anything; an unseen name appends exactly one new row owned by the
requester; and re-running the identical name list on the resulting store
changes nothing and returns the same ids (idempotent reconciliation). -/
theorem c2_reconciliation_get_or_create_idempotent
    (uid : Nat) (names : List String) (st : AttrState) :
    (∀ n t, findAttr uid n st.rows = some t → getOrCreate uid n st = (st, t.id))
  ∧ (∀ n, findAttr uid n st.rows = none →
      (getOrCreate uid n st).1.rows = st.rows ++ [⟨st.nextId, uid, n⟩])
  ∧ getOrCreateMany uid names (getOrCreateMany uid names st).1
      = ((getOrCreateMany uid names st).1, (getOrCreateMany uid names st).2) :=
  ⟨fun _ _ h => getOrCreate_reuse h, fun _ h => getOrCreate_new h,
    getOrCreateMany_idempotent uid names st⟩

/-- Concrete instance of C2: resolving the existing tag name returns the
store untouched, and re-running a mixed list is a no-op. -/
theorem c2_reconciliation_witness :
    getOrCreate 1 "Tag a" db1.tags = (db1.tags, 1)
  ∧ getOrCreateMany 1 ["Tag a", "New"] (getOrCreateMany 1 ["Tag a", "New"] db1.tags).1
      = ((getOrCreateMany 1 ["Tag a", "New"] db1.tags).1,
         (getOrCreateMany 1 ["Tag a", "New"] db1.tags).2) :=
  ⟨(c2_reconciliation_get_or_create_idempotent 1 [] db1.tags).1 "Tag a" tagA (by decide),
   (c2_reconciliation_get_or_create_idempotent 1 ["Tag a", "New"] db1.tags).2.2⟩

/-- C9: the recipe list is ordered by id descending, the tag and
ingredient lists by name descending, and each list contains exactly the
requesting user's rows. -/
theorem c9_list_ordering (uid : Nat) (db : Db) :
    (recipe_get_queryset uid db).Pairwise (fun a b => b.id ≤ a.id)
  ∧ (attr_get_queryset uid db.tags).Pairwise (fun a b => strLe b.name a.name)
  ∧ (attr_get_queryset uid db.ingredients).Pairwise (fun a b => strLe b.name a.name)
  ∧ (∀ r : Recipe, r ∈ recipe_get_queryset uid db ↔ r ∈ db.recipes ∧ r.userId = uid)
  ∧ (∀ t : AttrRow, t ∈ attr_get_queryset uid db.tags ↔ t ∈ db.tags.rows ∧ t.userId = uid)
  ∧ (∀ t : AttrRow,
      t ∈ attr_get_queryset uid db.ingredients ↔ t ∈ db.ingredients.rows ∧ t.userId = uid) := by
  refine ⟨?_, ?_, ?_, fun r => mem_recipe_get_queryset uid db r,
    fun t => mem_attr_get_queryset uid db.tags t,
    fun t => mem_attr_get_queryset uid db.ingredients t⟩
  · exact pairwise_sortDescBy (fun a b : Recipe => a.id ≤ b.id)
      (fun a b => Nat.le_total a.id b.id)
      (fun a b c h1 h2 => Nat.le_trans h1 h2) _
  · exact pairwise_sortDescBy (fun a b : AttrRow => strLe a.name b.name)
      (fun a b => strLe_total a.name b.name)
      (fun a b c h1 h2 => strLe_trans a.name b.name c.name h1 h2) _
  · exact pairwise_sortDescBy (fun a b : AttrRow => strLe a.name b.name)
      (fun a b => strLe_total a.name b.name)
      (fun a b c h1 h2 => strLe_trans a.name b.name c.name h1 h2) _

/-- Concrete instance of C9 on the fixture store. -/
theorem c9_list_ordering_witness :
    (attr_get_queryset 1 db1.tags).Pairwise (fun a b => strLe b.name a.name)
  ∧ (recipe_get_queryset 1 db1).Pairwise (fun a b => b.id ≤ a.id) :=
  ⟨(c9_list_ordering 1 db1).2.1, (c9_list_ordering 1 db1).1⟩

theorem reconcile_attrs_ingredientIds {uid : Nat} {p : RecipePayload} (r : Recipe) (db : Db)
    {names : List String} (hq : p.ingredients = some names) :
    (reconcile_attrs uid p r db).1.ingredientIds
      = (getOrCreateMany uid names db.ingredients).2 := by
  cases hp : p.tags <;> simp [reconcile_attrs, hp, hq]

theorem recipe_update_result_row {uid pk : Nat} {p : RecipePayload} {db : Db} {r : Recipe}
    (hobj : recipe_get_object uid pk db = some r) :
    ∀ x ∈ (recipe_update uid pk p db).2.recipes, x.id = pk →
      x = (reconcile_attrs uid p (apply_scalar_fields p r) db).1 := by
  intro x hx hxpk
  simp only [recipe_update, hobj] at hx
  rw [reconcile_attrs_recipes] at hx
  rcases List.mem_map.mp hx with ⟨y, _, hyx⟩
  by_cases hy : y.id = pk
  · rw [if_pos hy] at hyx
    exact hyx.symm
  · rw [if_neg hy] at hyx
    exact absurd (hyx ▸ hxpk) hy

theorem resolved_ids_from_names (uid : Nat) (names : List String) (st : AttrState) :
    ∀ tid ∈ (getOrCreateMany uid names st).2,
      ∃ t, t ∈ (getOrCreateMany uid names st).1.rows ∧ t.userId = uid
        ∧ t.name ∈ names ∧ t.id = tid := by
  intro tid htid
  rw [getOrCreateMany_resolved_ids] at htid
  rcases List.mem_map.mp htid with ⟨n, hn, hres⟩
  rcases Option.isSome_iff_exists.mp
    (findAttr_isSome_after_many uid names st n hn) with ⟨t, ht⟩
  rcases findAttr_spec ht with ⟨hmem, huid, hname⟩
  refine ⟨t, hmem, huid, ?_, ?_⟩
  · rw [hname]; exact hn
  · rw [← hres]; simp [resolveId, ht]

/-- C3: an update whose payload carries a tags list (and likewise an
ingredients list) replaces the stored recipe's corresponding associations
with exactly the resolved set: the updated recipe's tag (ingredient) ids
equal the reconciliation's resolved ids (so omitted names are dropped), an
empty submitted list leaves zero associations, and every remaining
association comes from a submitted name of the requesting user. -/
theorem c3_update_replaces_association_set
    (uid pk : Nat) (p : RecipePayload) (db : Db) (r : Recipe)
    (hobj : recipe_get_object uid pk db = some r) :
    (∀ names, p.tags = some names →
        (∀ x ∈ (recipe_update uid pk p db).2.recipes, x.id = pk →
            x.tagIds = (getOrCreateMany uid names db.tags).2)
      ∧ (names = [] →
          ∀ x ∈ (recipe_update uid pk p db).2.recipes, x.id = pk → x.tagIds = [])
      ∧ (∀ tid ∈ (getOrCreateMany uid names db.tags).2,
          ∃ t, t ∈ (getOrCreateMany uid names db.tags).1.rows ∧ t.userId = uid
            ∧ t.name ∈ names ∧ t.id = tid))
  ∧ (∀ names, p.ingredients = some names →
        (∀ x ∈ (recipe_update uid pk p db).2.recipes, x.id = pk →
            x.ingredientIds = (getOrCreateMany uid names db.ingredients).2)
      ∧ (names = [] →
          ∀ x ∈ (recipe_update uid pk p db).2.recipes, x.id = pk → x.ingredientIds = [])
      ∧ (∀ tid ∈ (getOrCreateMany uid names db.ingredients).2,
          ∃ t, t ∈ (getOrCreateMany uid names db.ingredients).1.rows ∧ t.userId = uid
            ∧ t.name ∈ names ∧ t.id = tid)) := by
  constructor
  · intro names hp
    have hmain : ∀ x ∈ (recipe_update uid pk p db).2.recipes, x.id = pk →
        x.tagIds = (getOrCreateMany uid names db.tags).2 := by
      intro x hx hxpk
      rw [recipe_update_result_row hobj x hx hxpk]
      exact reconcile_attrs_tagIds (apply_scalar_fields p r) db hp
    refine ⟨hmain, ?_, resolved_ids_from_names uid names db.tags⟩
    intro hnil x hx hxpk
    have := hmain x hx hxpk
    rw [hnil] at this
    simpa using this
  · intro names hq
    have hmain : ∀ x ∈ (recipe_update uid pk p db).2.recipes, x.id = pk →
        x.ingredientIds = (getOrCreateMany uid names db.ingredients).2 := by
      intro x hx hxpk
      rw [recipe_update_result_row hobj x hx hxpk]
      exact reconcile_attrs_ingredientIds (apply_scalar_fields p r) db hq
    refine ⟨hmain, ?_, resolved_ids_from_names uid names db.ingredients⟩
    intro hnil x hx hxpk
    have := hmain x hx hxpk
    rw [hnil] at this
    simpa using this

/-- Concrete instance of C3: updating the fixture recipe with one unseen
tag name resolves it to the freshly created tag row, and updating it with
one unseen ingredient name stores exactly the resolved ingredient ids on
the recipe. -/
theorem c3_update_witness :
    (∃ t, t ∈ (getOrCreateMany 1 ["Lunch"] db1.tags).1.rows ∧ t.userId = 1
      ∧ t.name ∈ ["Lunch"] ∧ t.id = 3)
  ∧ ({ rec1 with ingredientIds := [1] } : Recipe).ingredientIds
      = (getOrCreateMany 1 ["Salt"] db1.ingredients).2 :=
  ⟨((c3_update_replaces_association_set 1 1 { tags := some ["Lunch"] } db1 rec1
      (by decide)).1 ["Lunch"] rfl).2.2 3 (by decide),
   ((c3_update_replaces_association_set 1 1 { ingredients := some ["Salt"] } db1 rec1
      (by decide)).2 ["Salt"] rfl).1 { rec1 with ingredientIds := [1] }
      (by decide) (by decide)⟩

/-- C4 as stated is false: a detail READ of another user's tag is answered
with 405 Method Not Allowed, not 404 — `BaseRecipeAttributesViewSet`
mixes in no retrieve action, so GET is not bound on the detail route for
any requester.  Concretely: user 1 reads user 2's tag 5. -/
theorem c4_tag_detail_read_is_405 :
    attr_detail_dispatch Method.get 1 5 "x" db2.tags = (405, db2.tags)
  ∧ (405 : Nat) ≠ 404 :=
  ⟨rfl, by decide⟩

/-- C4 (amended): detail reads, updates and deletes of another user's
recipe, and updates and deletes of another user's tag or ingredient,
answer 404 and leave the store unchanged; lists contain only the
requester's rows; a detail read of a tag or ingredient is not exposed at
all and answers 405 for any requester. -/
theorem c4_owner_scoping_amended
    (uid pk apk ipk : Nat) (p : RecipePayload) (nm : String) (db : Db)
    (hr : ∀ x ∈ db.recipes, x.id = pk → x.userId ≠ uid)
    (ht : ∀ x ∈ db.tags.rows, x.id = apk → x.userId ≠ uid)
    (hi : ∀ x ∈ db.ingredients.rows, x.id = ipk → x.userId ≠ uid) :
    recipe_retrieve uid pk db = (404, none)
  ∧ recipe_update uid pk p db = (404, db)
  ∧ recipe_destroy uid pk db = (404, db)
  ∧ attr_update uid apk nm db.tags = (404, db.tags)
  ∧ attr_destroy uid apk db.tags = (404, db.tags)
  ∧ attr_update uid ipk nm db.ingredients = (404, db.ingredients)
  ∧ attr_destroy uid ipk db.ingredients = (404, db.ingredients)
  ∧ attr_detail_dispatch Method.get uid apk nm db.tags = (405, db.tags)
  ∧ (∀ x ∈ recipe_get_queryset uid db, x.userId = uid)
  ∧ (∀ x ∈ attr_get_queryset uid db.tags, x.userId = uid)
  ∧ (∀ x ∈ attr_get_queryset uid db.ingredients, x.userId = uid) := by
  have hro := recipe_get_object_eq_none uid pk db hr
  have hto := attr_get_object_eq_none uid apk db.tags ht
  have hio := attr_get_object_eq_none uid ipk db.ingredients hi
  refine ⟨?_, ?_, ?_, ?_, ?_, ?_, ?_, rfl, ?_, ?_, ?_⟩
  · simp [recipe_retrieve, hro]
  · simp [recipe_update, hro]
  · simp [recipe_destroy, hro]
  · simp [attr_update, hto]
  · simp [attr_destroy, hto]
  · simp [attr_update, hio]
  · simp [attr_destroy, hio]
  · intro x hx; exact ((mem_recipe_get_queryset uid db x).mp hx).2
  · intro x hx; exact ((mem_attr_get_queryset uid db.tags x).mp hx).2
  · intro x hx; exact ((mem_attr_get_queryset uid db.ingredients x).mp hx).2

/-- Concrete instance of the amended C4: user 1 against user 2's recipe 7,
tag 5 and ingredient 6. -/
theorem c4_owner_scoping_witness :
    recipe_retrieve 1 7 db2 = (404, none)
  ∧ recipe_destroy 1 7 db2 = (404, db2)
  ∧ attr_update 1 5 "x" db2.tags = (404, db2.tags)
  ∧ attr_destroy 1 6 db2.ingredients = (404, db2.ingredients) :=
  have h := c4_owner_scoping_amended 1 7 5 6 {} "x" db2 (by decide) (by decide) (by decide)
  ⟨h.1, h.2.2.1, h.2.2.2.1, h.2.2.2.2.2.2.1⟩

/-- C10: an owner's update (with any payload, including one carrying a
`user` value for a different user) never changes any stored recipe's id
or user; and a create stores the new recipe under the requesting user
regardless of the payload. -/
theorem c10_user_field_immutable (uid pk : Nat) (p : RecipePayload) (db : Db)
    (hnodup : (db.recipes.map (fun r => r.id)).Nodup) :
    ((recipe_update uid pk p db).2.recipes.map (fun r => (r.id, r.userId))
        = db.recipes.map (fun r => (r.id, r.userId)))
  ∧ (∀ x ∈ (recipe_create uid p db).2.recipes, x ∈ db.recipes ∨ x.userId = uid) := by
  constructor
  · cases hobj : recipe_get_object uid pk db with
    | none => simp [recipe_update, hobj]
    | some r =>
      rcases recipe_get_object_spec hobj with ⟨hmem, huid, hid⟩
      simp only [recipe_update, hobj]
      rw [reconcile_attrs_recipes, List.map_map]
      apply List.map_congr_left
      intro a ha
      simp only [Function.comp_apply]
      by_cases hpk : a.id = pk
      · have har : a = r := List.inj_on_of_nodup_map hnodup ha hmem (by simp [hpk, hid])
        subst har
        have h1 := reconcile_attrs_id uid p (apply_scalar_fields p a) db
        rw [if_pos hpk, h1.1, h1.2]
        rfl
      · rw [if_neg hpk]
  · intro x hx
    by_cases hv : recipe_create_valid p = true
    · simp only [recipe_create, if_pos hv, perform_create] at hx
      rw [reconcile_attrs_recipes] at hx
      rcases List.mem_append.mp hx with hx | hx
      · exact Or.inl hx
      · right
        rcases List.mem_singleton.mp hx with rfl
        exact (reconcile_attrs_id uid p _ db).2
    · simp only [recipe_create, if_neg hv] at hx
      exact Or.inl hx

/-- Concrete instance of C10: an owner's patch carrying `user = 2` leaves
the (id, user) column of the store unchanged. -/
theorem c10_user_field_immutable_witness :
    (recipe_update 1 1 { title := some "New", user := some 2 } db1).2.recipes.map
        (fun r => (r.id, r.userId))
      = db1.recipes.map (fun r => (r.id, r.userId)) :=
  (c10_user_field_immutable 1 1 { title := some "New", user := some 2 } db1 (by decide)).1

/-- C6: a POST to the token endpoint with an empty password, or with a
pair that authenticates no stored user, answers 400 and carries no token;
valid credentials yield 200 with a token. -/
theorem c6_token_endpoint (email pw : String) (users : List User) :
    (pw = "" → token_endpoint email pw users = (400, none))
  ∧ ((∀ u ∈ users, ¬(u.email = email ∧ u.passwordHash = hashPassword pw)) →
      token_endpoint email pw users = (400, none))
  ∧ (∀ u ∈ users, pw ≠ "" → u.email = email → u.passwordHash = hashPassword pw →
      (token_endpoint email pw users).1 = 200 ∧ (token_endpoint email pw users).2.isSome) := by
  refine ⟨fun h => by simp [token_endpoint, h], ?_, ?_⟩
  · intro h
    by_cases hb : pw = ""
    · simp [token_endpoint, hb]
    · have hnone : authenticate email pw users = none := by
        rw [authenticate, List.find?_eq_none]
        intro u hu
        simp only [Bool.and_eq_true, decide_eq_true_eq, not_and]
        intro he hp
        exact (h u hu) ⟨he, hp⟩
      simp [token_endpoint, auth_token_validate, hb, hnone]
  · intro u hu hb he hp
    have hsome : (authenticate email pw users).isSome := by
      rw [authenticate, List.find?_isSome]
      exact ⟨u, hu, by simp [he, hp]⟩
    rcases Option.isSome_iff_exists.mp hsome with ⟨v, hv⟩
    constructor <;> simp [token_endpoint, auth_token_validate, hb, hv]

/-- Concrete instance of C6 against the fixture user: wrong password 400,
blank password 400, right password 200. -/
theorem c6_token_endpoint_witness :
    token_endpoint "user@example.com" "wrongpass" db1.users = (400, none)
  ∧ token_endpoint "user@example.com" "" db1.users = (400, none)
  ∧ (token_endpoint "user@example.com" "testpass1234" db1.users).1 = 200 :=
  ⟨(c6_token_endpoint "user@example.com" "wrongpass" db1.users).2.1 (by decide),
   (c6_token_endpoint "user@example.com" "" db1.users).1 rfl,
   ((c6_token_endpoint "user@example.com" "testpass1234" db1.users).2.2 user1
     (by decide) (by decide) (by decide) (by decide)).1⟩

theorem rsplitAt_eq_none {c : Char} {l : List Char} (h : c ∉ l) : rsplitAt c l = none := by
  induction l with
  | nil => rfl
  | cons x xs ih =>
    simp only [List.mem_cons, not_or] at h
    have hxc : ¬ x = c := fun hxc => h.1 hxc.symm
    simp [rsplitAt, ih h.2, hxc]

theorem rsplitAt_append {c : Char} (l r : List Char) (h : c ∉ r) :
    rsplitAt c (l ++ c :: r) = some (l, r) := by
  induction l with
  | nil => simp [rsplitAt, rsplitAt_eq_none h]
  | cons x xs ih => simp [rsplitAt, ih]

/-- C7: creating a user normalizes the email by lowercasing the domain
portion (after the last `@`) while preserving the local part as given, and
creating with an empty email fails with an error, so no user is stored. -/
theorem c7_email_normalization (emailName dom : List Char) (h : '@' ∉ dom)
    (pw nm : String) (db : Db) :
    normalizeEmailChars (emailName ++ '@' :: dom) = emailName ++ '@' :: dom.map Char.toLower
  ∧ normalize_email (String.mk (emailName ++ '@' :: dom))
      = String.mk (emailName ++ '@' :: dom.map Char.toLower)
  ∧ create_user "" pw nm db = Except.error "Users must have an email address" := by
  have hs : normalizeEmailChars (emailName ++ '@' :: dom)
      = emailName ++ '@' :: dom.map Char.toLower := by
    simp [normalizeEmailChars, rsplitAt_append emailName dom h]
  exact ⟨hs, by simp [normalize_email, hs], by simp [create_user]⟩

/-- Concrete instance of C7 on one of the repository's own test vectors:
`Test2@Example.com` normalizes to `Test2@example.com`, and creation with
an empty email errors. -/
theorem c7_email_normalization_witness :
    normalize_email (String.mk ("Test2".data ++ '@' :: "Example.com".data))
      = String.mk ("Test2".data ++ '@' :: "Example.com".data.map Char.toLower)
  ∧ create_user "" "sample123" "n" db1 = Except.error "Users must have an email address" :=
  have h := c7_email_normalization "Test2".data "Example.com".data (by decide) "sample123" "n" db1
  ⟨h.2.1, h.2.2⟩

/-- C8: a user-creation POST with a password shorter than 5 characters, or
with an email already stored for an existing user, answers 400 and leaves
the store unchanged — no new user row exists afterwards. -/
theorem c8_create_user_validation (email pw nm : String) (db : Db) :
    (pw.length < 5 → create_user_endpoint email pw nm db = (400, db))
  ∧ ((∃ u ∈ db.users, u.email = email) → create_user_endpoint email pw nm db = (400, db)) := by
  constructor
  · intro h; simp [create_user_endpoint, h]
  · intro h
    by_cases hl : pw.length < 5
    · simp [create_user_endpoint, hl]
    · have hdup : db.users.any (fun u => decide (u.email = email)) = true := by
        rw [List.any_eq_true]
        rcases h with ⟨u, hu, he⟩
        exact ⟨u, hu, by simp [he]⟩
      simp [create_user_endpoint, hl, hdup]

/-- Concrete instance of C8: a 4-character password and a duplicate of the
fixture user's email are both rejected with the store unchanged. -/
theorem c8_create_user_validation_witness :
    create_user_endpoint "test@example.com" "1234" "John Doe" db1 = (400, db1)
  ∧ create_user_endpoint "user@example.com" "testpass1234" "John Doe" db1 = (400, db1) :=
  ⟨(c8_create_user_validation "test@example.com" "1234" "John Doe" db1).1 (by decide),
   (c8_create_user_validation "user@example.com" "testpass1234" "John Doe" db1).2
     ⟨user1, by decide, by decide⟩⟩

/-- C1 is violated by the code: listing tags with `assigned_only=1` still
returns `tagB`, a tag of the requesting user that no recipe references,
because `get_queryset` never reads the query parameters. -/
theorem c1_assigned_only_flag_ignored :
    tagB ∈ attr_list 1 [("assigned_only", "1")] db1.tags
  ∧ (∀ r ∈ db1.recipes, tagB.id ∉ r.tagIds) := by
  constructor
  · decide
  · decide

/-- C5 is violated by the code: `get_serializer_class` compares the action
against the hyphenated url path `upload-image` while DRF names the action
after the method, `upload_image`, so the upload runs under the detail
serializer; a payload that is exactly a valid image then fails the detail
serializer's required fields and the endpoint answers 400 with the store
unchanged (no image path recorded), where the claim requires 200 and a
recorded path. -/
theorem c5_upload_valid_image_rejected :
    get_serializer_class upload_image_action = SerializerClass.recipeDetailSerializer
  ∧ serializer_is_valid SerializerClass.recipeImageSerializer validImagePayload = true
  ∧ upload_image 1 1 validImagePayload "uuid1" db1 = (400, db1) := by
  refine ⟨by decide, rfl, by decide⟩
